import Mathlib

/-!
Verification of `tbtools` (traceback rendering and post-mortem debugging).

This file gives a shallow embedding in Lean 4 of the parts of the package
that the specification's claims are about:

* `ultraTB.py`: `uniq_stable`, the `tokeneater` dotted-name extractor of
  `VerboseTB.text`, `_fixed_getinnerframes`' per-frame source window,
  `SyntaxTB.text`'s syntax-error source window, the caret-line computation of
  `ListTB._format_exception_only`, the per-name value-resolution loop of
  `VerboseTB.text`, the frame-record try/except of `VerboseTB.text`, and the
  mode dispatch of `FormattedTB.text`;
* `Debugger.py`: the `do_list` argument semantics;
* `__init__.py`: the package-level `excepthook`.

The embedding renders with the `NoColor` scheme: every color token of the
scheme is the empty string, so the color interpolations of the source
(`'%s...%s' % (Colors.x, Colors.Normal)`) reduce to the plain text in between.
All machine-level collaborators that the source calls out to (the `tokenize`
module's token stream, `inspect.getinnerframes`, `eval` against a scope
dictionary, `inspect.formatargvalues`) are modelled as explicit inputs, since
they are external to this repository.
-/

namespace TBTools

/-! ## Python semantics helpers -/

/-- Python `str.isspace()` for a single character (the whitespace characters
of the C locale, which is what CPython 2 uses for `str`). -/
def pyIsspace (c : Char) : Bool :=
  c = ' ' || c = '\t' || c = '\n' || c = '\r' || c = '\x0b' || c = '\x0c'

/-- Normalization of one Python slice index against a list of length `n`:
negative indices count from the end, and the result is clamped to `[0, n]`. -/
def pySliceIdx (n : Nat) (i : Int) : Nat :=
  if i < 0 then (max (i + n) 0).toNat else min i.toNat n

/-- Python slicing `xs[a:b]` (no step): the elements with normalized index in
`[a', b')`. -/
def pySlice {α : Type} (xs : List α) (a b : Int) : List α :=
  let a' := pySliceIdx xs.length a
  let b' := pySliceIdx xs.length b
  (xs.drop a').take (b' - a')

/-- Python `string.rjust(s, width)`: left-pad with spaces up to `width`
(a no-op when the string is already at least that long). -/
def pyRjust (s : String) (width : Int) : String :=
  if (s.length : Int) < width then
    String.mk (List.replicate (width - s.length).toNat ' ') ++ s
  else s

/-- Length of the leading-whitespace run of a line (what `str.strip()`
removes at the front; also the scan `while i < len(line) and
line[i].isspace(): i = i+1` of `ListTB._format_exception_only`). -/
def leadingWS (line : List Char) : Nat := (line.takeWhile pyIsspace).length

/-- Length of the trailing-whitespace run (what `str.strip()` removes at the
end). -/
def trailingWS (line : List Char) : Nat := (line.reverse.takeWhile pyIsspace).length

/-- Python `str.strip()` on a line of characters: the part strictly between
the leading and the trailing whitespace runs (`strip` is a Python builtin;
it is modelled by its run lengths). -/
def pyStrip (l : List Char) : List Char :=
  (l.drop (leadingWS l)).take (l.length - trailingWS l - leadingWS l)

/-- Python truthiness of `linecache.getline(file, lineno)`: the 1-based line
if it exists, `""` otherwise. -/
def pyGetline (file : List String) (lineno : Int) : String :=
  if 1 ≤ lineno ∧ lineno.toNat ≤ file.length then file.getD (lineno.toNat - 1) "" else ""

/-- A slice `xs[x-c : x+c]` never holds more than `2*c` elements, whatever the
sign of the endpoints (Python's negative indices wrap, but stay within this
bound for a window of width `2*c`). -/
theorem pySlice_window_length_le {α : Type} (xs : List α) (x : Int) (c : Nat) :
    (pySlice xs (x - c) (x + c) : List α).length ≤ 2 * c := by
  unfold pySlice pySliceIdx
  simp only [List.length_take, List.length_drop]
  split_ifs <;> omega

/-! ## `uniq_stable` (ultraTB.py lines 98-118)

    unique = []
    unique_dict = {}
    for nn in elems:
        if nn not in unique_dict:
            unique.append(nn)
            unique_dict[nn] = None
    return unique

The membership test `nn not in unique_dict` is against the keys of
`unique_dict`, which are at every step exactly the elements of `unique`;
the embedding therefore tests membership in the accumulator itself. -/

def uniq_stable (elems : List String) : List String :=
  elems.foldl (fun unique nn => if nn ∈ unique then unique else unique ++ [nn]) []

theorem uniq_stable_aux_spec (l : List String) :
    ∀ acc : List String,
      acc.Nodup →
      (l.foldl (fun unique nn => if nn ∈ unique then unique else unique ++ [nn]) acc).Nodup ∧
      (∃ t, (l.foldl (fun unique nn => if nn ∈ unique then unique else unique ++ [nn]) acc)
              = acc ++ t ∧ t.Sublist l) ∧
      ∀ x, (x ∈ acc ∨ x ∈ l) ↔
        x ∈ l.foldl (fun unique nn => if nn ∈ unique then unique else unique ++ [nn]) acc := by
  induction l with
  | nil =>
      intro acc hacc
      refine ⟨hacc, ⟨[], by simp, List.nil_sublist _⟩, ?_⟩
      simp
  | cons y ys ih =>
      intro acc hacc
      by_cases hy : y ∈ acc
      · have := ih acc hacc
        simp only [List.foldl_cons, if_pos hy]
        refine ⟨this.1, ?_, ?_⟩
        · obtain ⟨t, ht, hsub⟩ := this.2.1
          exact ⟨t, ht, hsub.trans (List.sublist_cons_self y ys)⟩
        · intro x
          rw [← this.2.2 x]
          constructor
          · rintro (hx | hx)
            · exact Or.inl hx
            · rcases List.mem_cons.mp hx with h | h
              · exact Or.inl (h ▸ hy)
              · exact Or.inr h
          · rintro (hx | hx)
            · exact Or.inl hx
            · exact Or.inr (List.mem_cons_of_mem _ hx)
      · have hacc' : (acc ++ [y]).Nodup := by
          simp [List.nodup_append, hacc, hy]
        have := ih (acc ++ [y]) hacc'
        simp only [List.foldl_cons, if_neg hy]
        refine ⟨this.1, ?_, ?_⟩
        · obtain ⟨t, ht, hsub⟩ := this.2.1
          exact ⟨y :: t, by simpa [List.append_assoc] using ht, hsub.cons₂ y⟩
        · intro x
          rw [← this.2.2 x]
          constructor
          · rintro (hx | hx)
            · exact Or.inl (by simp [hx])
            · rcases List.mem_cons.mp hx with h | h
              · exact Or.inl (by simp [h])
              · exact Or.inr h
          · rintro (hx | hx)
            · rcases List.mem_append.mp hx with h | h
              · exact Or.inl h
              · exact Or.inr (by simp at h; simp [h])
            · exact Or.inr (List.mem_cons_of_mem _ hx)

/-- The function `uniq_stable` produces a duplicate-free sublist of its input with the same
elements (keeping the order of first appearance). -/
theorem uniq_stable_spec (l : List String) :
    (uniq_stable l).Nodup ∧ (uniq_stable l).Sublist l ∧
      ∀ x, x ∈ l ↔ x ∈ uniq_stable l := by
  have h := uniq_stable_aux_spec l [] (List.nodup_nil)
  refine ⟨h.1, ?_, ?_⟩
  · obtain ⟨t, ht, hsub⟩ := h.2.1
    simpa [uniq_stable, ht] using hsub
  · intro x
    have := h.2.2 x
    simpa [uniq_stable] using this

/-! ## `_fixed_getinnerframes` source window (ultraTB.py lines 139-152)

Per-frame window computation of the non-syntax-error rendering path:

    maybeStart = lnum-1 - context//2
    start =  max(maybeStart, 0)
    end   = start + context
    lines = linecache.getlines(file)[start:end]
    # pad with empty lines if necessary
    if maybeStart < 0:
        lines = (['\n'] * -maybeStart) + lines
    if len(lines) < context:
        lines += ['\n'] * (context - len(lines))

`lnum` is the 1-based line number of the frame and `src` the file's lines.
(`start` and `end` are nonnegative here, so the slice is plain take/drop.) -/

def fixedWindow (src : List String) (lnum context : Nat) : List String :=
  let maybeStart : Int := (lnum : Int) - 1 - (context / 2 : Nat)
  let start : Nat := (max maybeStart 0).toNat
  let lines := (src.drop start).take context
  let lines := if maybeStart < 0 then List.replicate (-maybeStart).toNat "\n" ++ lines else lines
  if lines.length < context then lines ++ List.replicate (context - lines.length) "\n" else lines

/-- The `INDEX_POS` slot attached to the same record: `lnum - 1 - start`. -/
def fixedWindowIndex (lnum context : Nat) : Int :=
  (lnum : Int) - 1 - max ((lnum : Int) - 1 - (context / 2 : Nat)) 0

/-! ## `SyntaxTB.text` source window (ultraTB.py lines 801-809)

The dedicated syntax-error rendering path:

    context = context/2
    lines = linecache.getlines(value.filename)
    lines = lines[(lineno-1)-context:(lineno-1)+context]
    while len(lines) <> context*2 + 1:
        lines.append("\n")
    index = context

The slice uses Python slicing on possibly negative endpoints, so
`lineno - 1 - context/2 < 0` wraps around to the end of the file.  The
`while` loop appends `"\n"` until the length is exactly `context*2 + 1`;
since the slice holds at most `2*(context/2)` lines
(`pySlice_window_length_le`), the loop always terminates and is equivalent
to appending the missing number of blank lines. -/

def synErrWindow (src : List String) (lineno : Int) (context : Nat) : List String :=
  let c := context / 2
  let lines := pySlice src (lineno - 1 - c) (lineno - 1 + c)
  lines ++ List.replicate (2 * c + 1 - lines.length) "\n"

/-- The center slot the syntax-error path hands to `_formatTracebackLines`
(`index = context` after the halving), i.e. the row it marks as the failing
line. -/
def synErrIndex (context : Nat) : Nat := context / 2

/-- A ten-line source file used as a concrete input. -/
def demoTen : List String :=
  ["l1\n", "l2\n", "l3\n", "l4\n", "l5\n", "l6\n", "l7\n", "l8\n", "l9\n", "l10\n"]

/-- The syntax-error window always reaches the `while` loop's target length
`2*(context/2) + 1` (the slice holds at most `2*(context/2)` lines, so the
padding always tops it up exactly). -/
theorem synErrWindow_length (src : List String) (lineno : Int) (context : Nat) :
    (synErrWindow src lineno context).length = 2 * (context / 2) + 1 := by
  have h := pySlice_window_length_le src (lineno - 1) (context / 2)
  unfold synErrWindow
  simp only [List.length_append, List.length_replicate]
  omega

/-- C3, counterexample.  The non-syntax-error path does pad: for a one-line
file with the error at line 1 and the default context 5, the frame carries 5
lines (more than the file's 1 line), and for a ten-line file with the error at
line 1 it carries 7 lines (more than the requested context 5). -/
theorem fixedWindow_pads_counterexample :
    (fixedWindow ["x\n"] 1 5).length = 5 ∧
    ¬ (fixedWindow ["x\n"] 1 5).length ≤ (["x\n"] : List String).length ∧
    (fixedWindow demoTen 1 5).length = 7 ∧
    ¬ (fixedWindow demoTen 1 5).length ≤ 5 := by
  refine ⟨rfl, by decide, rfl, by decide⟩

/-- C3, amended.  `_fixed_getinnerframes` pads rather than clamps: every frame
carries at least `context` lines; exactly `context` of them whenever
`context/2 < lnum` (the window does not run past the start of the file), while
for `lnum ≤ context/2` blank lines are prepended on top of the slice and the
result can exceed both `context` and the file's length. -/
theorem fixedWindow_padded_length (src : List String) (lnum context : Nat) :
    context ≤ (fixedWindow src lnum context).length ∧
    (context / 2 < lnum → (fixedWindow src lnum context).length = context) := by
  unfold fixedWindow
  dsimp only
  constructor
  · split_ifs <;>
      simp only [List.length_append, List.length_replicate, List.length_take,
        List.length_drop] at * <;> omega
  · intro h
    have hms : ¬ ((lnum : Int) - 1 - (context / 2 : Nat) < 0) := by omega
    rw [if_neg hms]
    have hlen : ((src.drop (max ((lnum : Int) - 1 - (context / 2 : Nat)) 0).toNat).take
        context).length ≤ context := by
      simp only [List.length_take, List.length_drop]; omega
    split_ifs with h2
    · simp only [List.length_append, List.length_replicate]; omega
    · omega

/-- C3, witness for the amended theorem: at line 9 of the ten-line file with
context 5 the window has exactly the requested 5 lines. -/
theorem fixedWindow_padded_length_witness :
    5 ≤ (fixedWindow demoTen 9 5).length ∧ (fixedWindow demoTen 9 5).length = 5 :=
  ⟨(fixedWindow_padded_length demoTen 9 5).1,
   (fixedWindow_padded_length demoTen 9 5).2 (by decide)⟩

/-- C4: the syntax-error window does have exactly `2*(context/2) + 1` lines,
but the failing line is not always at the center index `context/2`.  For a
syntax error at line 1 of a ten-line file (requested context 5), the slice
start `lineno-1-context/2 = -2` wraps to the end of the file under Python
slicing, the slice comes back empty, and the window is five blank lines: its
center row is `"\n"`, not the failing first line of the file. -/
theorem synErrWindow_center_bug :
    synErrWindow demoTen 1 5 = ["\n", "\n", "\n", "\n", "\n"] ∧
    (synErrWindow demoTen 1 5).length = 2 * synErrIndex 5 + 1 ∧
    (synErrWindow demoTen 1 5).getD (synErrIndex 5) "" ≠ demoTen.getD 0 "" := by
  refine ⟨rfl, rfl, by decide⟩

/-! ## The dotted-name tokeneater (ultraTB.py lines 542-600)

`VerboseTB.text` extracts the identifiers on the error line by feeding the
line through the standard library's `tokenize` module with a stateful
`tokeneater` callback:

    def tokeneater(token_type, token, start, end, line):
        # build composite names
        if token == '.':
            try:
                names[-1] += '.'
                tokeneater.name_cont = True
                return
            except IndexError:
                pass
        if token_type == tokenize.NAME and token not in keyword.kwlist:
            if tokeneater.name_cont:
                names[-1] += token
                tokeneater.name_cont = False
            else:
                names.append(token)
        elif token_type == tokenize.NEWLINE:
            raise IndexError
    tokeneater.name_cont = False
    ...
    tokenize.tokenize(linereader, tokeneater)   # IndexError = stop signal
    ...
    unique_names = uniq_stable(names)

The `tokenize` module is an external collaborator; its token stream is
modelled as an explicit list of `(kind, text)` pairs.  The `IndexError`
raised on a NEWLINE token is the stop signal that ends the run. -/

/-- Token kinds that matter to `tokeneater`: `tokenize.NAME`,
`tokenize.NEWLINE`, and everything else (operators, numbers, strings, ...). -/
inductive TokKind where
  | NAME
  | NEWLINE
  | OTHER
deriving DecidableEq, Repr

structure Tok where
  kind : TokKind
  text : String
deriving DecidableEq, Repr

/-- Python 2's `keyword.kwlist`. -/
def kwlist : List String :=
  ["and", "as", "assert", "break", "class", "continue", "def", "del", "elif",
   "else", "except", "exec", "finally", "for", "from", "global", "if",
   "import", "in", "is", "lambda", "not", "or", "pass", "print", "raise",
   "return", "try", "while", "with", "yield"]

/-- The mutable state of the callback: the `names` list built so far and the
`name_cont` flag. -/
structure EaterState where
  names : List String
  nameCont : Bool
deriving Repr

/-- One `tokeneater` call.  Returns `none` when the callback raises
`IndexError` (the NEWLINE stop signal), otherwise the updated state. -/
def tokeneaterStep (st : EaterState) (t : Tok) : Option EaterState :=
  if t.text = "." ∧ st.names ≠ [] then
    -- names[-1] += '.'; name_cont = True; return
    some ⟨st.names.dropLast ++ [st.names.getLastD "" ++ "."], true⟩
  else if t.kind = TokKind.NAME ∧ t.text ∉ kwlist then
    if st.nameCont then some ⟨st.names.dropLast ++ [st.names.getLastD "" ++ t.text], false⟩
    else some ⟨st.names ++ [t.text], false⟩
  else if t.kind = TokKind.NEWLINE then none
  else some st

/-- Driving the callback over the token stream, as `tokenize.tokenize` does,
with the `IndexError` stop signal ending the run (the caller catches it as
normal termination). -/
def runTokeneater (st : EaterState) : List Tok → List String
  | [] => st.names
  | t :: ts =>
      match tokeneaterStep st t with
      | none => st.names
      | some st' => runTokeneater st' ts

/-- The full Name Extractor as `VerboseTB.text` composes it: the raw
(possibly repetitious) name list from `tokeneater`, pruned by
`uniq_stable`. -/
def rawNames (tokens : List Tok) : List String :=
  runTokeneater ⟨[], false⟩ tokens

def extractNames (tokens : List Tok) : List String :=
  uniq_stable (rawNames tokens)

/-- The token stream Python's `tokenize` produces for the line
`"a.b.c + foo(bar)"`. -/
def exampleTokens : List Tok :=
  [⟨.NAME, "a"⟩, ⟨.OTHER, "."⟩, ⟨.NAME, "b"⟩, ⟨.OTHER, "."⟩, ⟨.NAME, "c"⟩,
   ⟨.OTHER, "+"⟩, ⟨.NAME, "foo"⟩, ⟨.OTHER, "("⟩, ⟨.NAME, "bar"⟩,
   ⟨.OTHER, ")"⟩, ⟨.NEWLINE, "\n"⟩]

/-- The token stream for a line on which `bar` appears twice:
`"bar + foo(bar)"`. -/
def exampleTokensDup : List Tok :=
  [⟨.NAME, "bar"⟩, ⟨.OTHER, "+"⟩, ⟨.NAME, "foo"⟩, ⟨.OTHER, "("⟩,
   ⟨.NAME, "bar"⟩, ⟨.OTHER, ")"⟩, ⟨.NEWLINE, "\n"⟩]

/-- On an already duplicate-free list, `uniq_stable` is the identity. -/
theorem uniq_stable_of_nodup :
    ∀ (l acc : List String), l.Nodup → (∀ x ∈ l, x ∉ acc) →
      l.foldl (fun unique nn => if nn ∈ unique then unique else unique ++ [nn]) acc
        = acc ++ l := by
  intro l
  induction l with
  | nil => intro acc _ _; simp
  | cons y ys ih =>
      intro acc hnd hdisj
      have hy : y ∉ acc := hdisj y (by simp)
      simp only [List.foldl_cons, if_neg hy]
      rw [ih (acc ++ [y]) (List.nodup_cons.mp hnd).2 ?_]
      · simp
      · intro x hx
        simp only [List.mem_append, List.mem_singleton]
        rintro (h | h)
        · exact hdisj x (List.mem_cons_of_mem _ hx) h
        · exact (List.nodup_cons.mp hnd).1 (h ▸ hx)

/-- C6: the Name Extractor's output is duplicate-free, is a subsequence of the
raw name list (so it keeps first-appearance order), mentions exactly the raw
names, and is a fixed point of the pruning (running the de-duplication again
changes nothing); on the token stream of `"a.b.c + foo(bar)"` it yields
exactly `["a.b.c", "foo", "bar"]`, and a repeated `bar` is emitted once.
Determinism over a given token stream is inherent: the embedding is a pure
function of the stream, and each call starts from the freshly reset state
`⟨[], false⟩` exactly as the source re-creates `names` and
`tokeneater.name_cont` per frame. -/
theorem extractNames_stable_dedup :
    (∀ ts : List Tok,
        (extractNames ts).Nodup ∧
        (extractNames ts).Sublist (rawNames ts) ∧
        (rawNames ts).toFinset = (extractNames ts).toFinset ∧
        uniq_stable (extractNames ts) = extractNames ts) ∧
    extractNames exampleTokens = ["a.b.c", "foo", "bar"] ∧
    extractNames exampleTokensDup = ["bar", "foo"] := by
  refine ⟨fun ts => ?_, by decide, by decide⟩
  obtain ⟨h1, h2, h3⟩ := uniq_stable_spec (rawNames ts)
  refine ⟨h1, h2, ?_, ?_⟩
  · ext x
    simp only [List.mem_toFinset]
    exact h3 x
  · simpa [uniq_stable] using uniq_stable_of_nodup (extractNames ts) [] h1 (by simp)

/-! ## The caret line of `ListTB._format_exception_only` (ultraTB.py 343-358)

        if line is not None:
            i = 0
            while i < len(line) and line[i].isspace():
                i = i+1
            list.append('%s    %s%s\n' % (Colors.line, line.strip(), Colors.Normal))
            if offset is not None:
                s = '    '
                for c in line[i:offset-1]:
                    if c.isspace():
                        s = s + c
                    else:
                        s = s + ' '
                list.append('%s%s^%s\n' % (Colors.caret, s, Colors.Normal))

The displayed source line is the stripped line behind a fixed four-space
indent, and the caret line is built from `line[i:offset-1]` — the characters
from the first non-whitespace one up to, but excluding, index `offset-1`. -/

/-- The caret line as the source computes it (NoColor scheme, without the
trailing newline). -/
def caretLine (line : List Char) (offset : Int) : List Char :=
  let i := leadingWS line
  "    ".toList
    ++ (pySlice line (i : Int) (offset - 1)).map (fun c => if pyIsspace c then c else ' ')
    ++ ['^']

/-- The source line as displayed next to the caret: `'    %s' % line.strip()`. -/
def renderedSrcLine (line : List Char) : List Char := "    ".toList ++ pyStrip line

/-- Modelled from the claim's words, for comparison with `caretLine`: "the
caret line is computed by replacing every non-space character of the line up
to the reported column offset with a space, keeping space characters (so
leading whitespace is preserved as spaces), and appending `^`". -/
def caretLineClaim (line : List Char) (offset : Nat) : List Char :=
  (line.take offset).map (fun c => if pyIsspace c then c else ' ') ++ ['^']

/-- C5, counterexample: on the line `"  foo!"` with reported column 6, the
code's caret line drops the two characters of leading whitespace (the source
line is displayed stripped behind a uniform four-space indent) and scans only
up to index `offset-2`, so it is seven spaces and a caret, while the caret
line described by the claim keeps the leading whitespace and is six spaces
and a caret: the `^` lands on different columns. -/
theorem caretLine_counterexample :
    caretLine "  foo!".toList 6 ≠ caretLineClaim "  foo!".toList 6 ∧
    caretLine "  foo!".toList 6 = "       ^".toList ∧
    caretLineClaim "  foo!".toList 6 = "      ^".toList := by
  refine ⟨by decide, by decide, by decide⟩

theorem takeWhile_length_le (p : Char → Bool) (l : List Char) :
    (l.takeWhile p).length ≤ l.length := by
  induction l with
  | nil => simp
  | cons a as ih =>
      by_cases h : p a
      · simp only [List.takeWhile_cons, h, if_true, List.length_cons]
        omega
      · simp [List.takeWhile_cons, h]

/-- C5, amended: the caret line is four spaces, then the characters of the
line from its first non-whitespace character up to (excluding) index
`offset-1`, each non-whitespace character replaced by a space and whitespace
kept verbatim, then `^`.  Hence everything before the `^` is whitespace, the
`^` sits at index `4 + (offset-1) - i` where `i` counts the stripped leading
whitespace, and that is exactly the display position of the character at the
reported (1-based) column `offset` in the rendered, stripped,
four-space-indented source line. -/
theorem caretLine_aligned (ln : List Char) (offset : Int)
    (h1 : (leadingWS ln : Int) ≤ offset - 1)
    (h2 : offset - 1 < (ln.length : Int) - trailingWS ln) :
    (caretLine ln offset).length = (offset - 1 - leadingWS ln).toNat + 5 ∧
    (caretLine ln offset).getLast? = some '^' ∧
    (∀ c ∈ (caretLine ln offset).dropLast, pyIsspace c) ∧
    (renderedSrcLine ln)[(offset - 1 - leadingWS ln).toNat + 4]?
      = ln[(offset - 1).toNat]? := by
  have htrail : (trailingWS ln : Int) ≤ ln.length := by
    simpa [trailingWS] using takeWhile_length_le pyIsspace ln.reverse
  have hi : (leadingWS ln : Int) ≤ ln.length := by
    simpa [leadingWS] using takeWhile_length_le pyIsspace ln
  have hslice : (pySlice ln (leadingWS ln : Int) (offset - 1)).length
      = (offset - 1 - leadingWS ln).toNat := by
    unfold pySlice pySliceIdx
    simp only [List.length_take, List.length_drop]
    split_ifs <;> omega
  have hassoc : caretLine ln offset
      = ("    ".toList ++ (pySlice ln (leadingWS ln : Int) (offset - 1)).map
          (fun c => if pyIsspace c then c else ' ')) ++ ['^'] := by
    simp [caretLine]
  refine ⟨?_, ?_, ?_, ?_⟩
  · rw [hassoc]
    simp only [List.length_append, List.length_map, hslice, List.length_cons,
      List.length_nil]
    have h4 : ("    ".toList : List Char).length = 4 := by decide
    omega
  · rw [hassoc]
    exact List.getLast?_concat _
  · intro c hc
    rw [hassoc, List.dropLast_concat] at hc
    rcases List.mem_append.mp hc with h | h
    · have hsp : c = ' ' := by
        have h4l : ("    ".toList : List Char) = [' ', ' ', ' ', ' '] := by decide
        rw [h4l] at h
        simpa using h
      simp [hsp, pyIsspace]
    · obtain ⟨d, _, hd⟩ := List.mem_map.mp h
      by_cases hws : pyIsspace d
      · rw [if_pos hws] at hd
        exact hd ▸ hws
      · rw [if_neg hws] at hd
        rw [← hd]
        decide
  · have h4 : ("    ".toList : List Char).length = 4 := by decide
    unfold renderedSrcLine
    rw [List.getElem?_append_right (by omega)]
    rw [h4]
    have hsub : (offset - 1 - leadingWS ln).toNat + 4 - 4
        = (offset - 1 - leadingWS ln).toNat := by omega
    rw [hsub]
    unfold pyStrip
    rw [List.getElem?_take]
    rw [if_pos (by omega)]
    rw [List.getElem?_drop]
    congr 1
    omega

/-- C5, witness for the amended theorem: on `"  foo!"` with column 6 the
caret line is 8 characters long (`^` at display index 7), and that display
index holds `'!'`, the character at 0-based index 5 = column 6 of the line. -/
theorem caretLine_aligned_witness :
    (caretLine "  foo!".toList 6).length = 8 ∧
    (renderedSrcLine "  foo!".toList)[7]? = some '!' := by
  have h := caretLine_aligned "  foo!".toList 6 (by decide) (by decide)
  refine ⟨?_, ?_⟩
  · have := h.1
    simpa using this
  · have := h.2.2.2
    simpa using this

/-! ## The Verbose-mode value-resolution loop (ultraTB.py lines 602-629)

        lvals = []
        if self.include_vars:
            for name_full in unique_names:
                name_base = name_full.split('.', 1)[0]
                if name_base in frame.f_code.co_varnames:
                    if locals.has_key(name_base):
                        try:
                            value = repr(eval(name_full, locals))
                        except:
                            value = undefined
                    else:
                        value = undefined
                    name = tpl_local_var % name_full
                else:
                    if frame.f_globals.has_key(name_base):
                        try:
                            value = repr(eval(name_full, frame.f_globals))
                        except:
                            value = undefined
                    else:
                        value = undefined
                    name = tpl_global_var % name_full
                lvals.append(tpl_name_val % (name, value))

Under NoColor, `undefined` is the text `"undefined"`, `tpl_local_var` is
`'%s'`, `tpl_global_var` is `'global %s'` and `tpl_name_val` is `'%s = %s'`.
`eval`/`repr` against a live scope are external collaborators: the frame
model carries them as oracles that either produce a rendered value or raise
(any exception, including an attribute error partway through a dotted
path). -/

/-- A frame's two name scopes, as the loop consults them.  The `eval*Repr`
oracles model `repr(eval(name_full, scope))`: `Except.error` is an arbitrary
exception raised during evaluation or stringification. -/
structure FrameScope where
  co_varnames : List String
  localsHasKey : String → Bool
  globalsHasKey : String → Bool
  evalLocalRepr : String → Except Unit String
  evalGlobalRepr : String → Except Unit String

/-- The text `'%sundefined%s' % (Colors.em, ColorsNormal)` under NoColor. -/
def undefinedSentinel : String := "undefined"

/-- The base name `name_full.split('.', 1)[0]`: the prefix of the name before its first
dot (the whole name when it has none). -/
def nameBase (nameFull : String) : String :=
  String.mk (nameFull.toList.takeWhile (fun c => c != '.'))

/-- The binding text `tpl_name_val % (name, value)`. -/
def tplNameVal (name value : String) : String := name ++ " = " ++ value

/-- One iteration of the loop: the `name = value` entry appended to `lvals`
for one extracted name. -/
def resolveEntry (fr : FrameScope) (nameFull : String) : String :=
  let base := nameBase nameFull
  if fr.co_varnames.contains base then
    let value :=
      if fr.localsHasKey base then
        match fr.evalLocalRepr nameFull with
        | .ok v => v
        | .error _ => undefinedSentinel
      else undefinedSentinel
    tplNameVal nameFull value
  else
    let value :=
      if fr.globalsHasKey base then
        match fr.evalGlobalRepr nameFull with
        | .ok v => v
        | .error _ => undefinedSentinel
      else undefinedSentinel
    tplNameVal ("global " ++ nameFull) value

/-- The whole loop: successive appends to `lvals`. -/
def buildLvals (fr : FrameScope) (uniqueNames : List String) : List String :=
  uniqueNames.foldl (fun lvals nameFull => lvals ++ [resolveEntry fr nameFull]) []

/-- The failure condition of the claim for one name: the base name is missing
from the scope that would be consulted, or the consulted scope's
evaluation/stringification raises. -/
def resolveFails (fr : FrameScope) (nameFull : String) : Bool :=
  let base := nameBase nameFull
  if fr.co_varnames.contains base then
    if fr.localsHasKey base then
      match fr.evalLocalRepr nameFull with
      | .ok _ => false
      | .error _ => true
    else true
  else
    if fr.globalsHasKey base then
      match fr.evalGlobalRepr nameFull with
      | .ok _ => false
      | .error _ => true
    else true

theorem buildLvals_foldl (fr : FrameScope) :
    ∀ (names : List String) (acc : List String),
      names.foldl (fun lvals nameFull => lvals ++ [resolveEntry fr nameFull]) acc
        = acc ++ names.map (resolveEntry fr) := by
  intro names
  induction names with
  | nil => intro acc; simp
  | cons n ns ih =>
      intro acc
      simp only [List.foldl_cons, List.map_cons]
      rw [ih (acc ++ [resolveEntry fr n])]
      simp

/-- The loop `buildLvals` is elementwise: one rendered entry per extracted name. -/
theorem buildLvals_eq_map (fr : FrameScope) (names : List String) :
    buildLvals fr names = names.map (resolveEntry fr) := by
  unfold buildLvals
  simpa using buildLvals_foldl fr names []

/-- A failing name's entry is the name bound to the `undefined` sentinel. -/
theorem resolveEntry_of_fails (fr : FrameScope) (nameFull : String)
    (h : resolveFails fr nameFull = true) :
    resolveEntry fr nameFull = tplNameVal nameFull undefinedSentinel ∨
    resolveEntry fr nameFull = tplNameVal ("global " ++ nameFull) undefinedSentinel := by
  unfold resolveEntry
  unfold resolveFails at h
  by_cases hb : fr.co_varnames.contains (nameBase nameFull)
  · left
    rw [if_pos hb] at h ⊢
    by_cases hl : fr.localsHasKey (nameBase nameFull)
    · rw [if_pos hl] at h ⊢
      cases he : fr.evalLocalRepr nameFull with
      | ok v => rw [he] at h; simp at h
      | error e => simp
    · rw [if_neg hl]
  · right
    rw [if_neg hb] at h ⊢
    by_cases hg : fr.globalsHasKey (nameBase nameFull)
    · rw [if_pos hg] at h ⊢
      cases he : fr.evalGlobalRepr nameFull with
      | ok v => rw [he] at h; simp at h
      | error e => simp
    · rw [if_neg hg]

/-- C1: in Verbose mode, a name whose resolution fails (base name missing
from the consulted scope, or any exception while evaluating/stringifying the
dotted path) is rendered bound to the `undefined` sentinel; every name on the
line — in particular every one after the failing one — still gets its own
rendered entry, and the loop is total (no failure escapes it). -/
theorem verbose_lvals_undefined_sentinel (fr : FrameScope) (names : List String)
    (i : Nat) (n : String) (hn : names[i]? = some n)
    (hfail : resolveFails fr n = true) :
    (buildLvals fr names).length = names.length ∧
    ((buildLvals fr names)[i]? = some (tplNameVal n undefinedSentinel) ∨
     (buildLvals fr names)[i]? = some (tplNameVal ("global " ++ n) undefinedSentinel)) ∧
    (∀ j : Nat, (buildLvals fr names)[j]? = (names[j]?).map (resolveEntry fr)) := by
  have hmap := buildLvals_eq_map fr names
  refine ⟨by rw [hmap]; simp, ?_, ?_⟩
  · rw [hmap, List.getElem?_map, hn]
    rcases resolveEntry_of_fails fr n hfail with h | h
    · left; rw [Option.map_some', h]
    · right; rw [Option.map_some', h]
  · intro j
    rw [hmap, List.getElem?_map]

/-- C1, witness: a synthetic frame whose local-scope evaluation always raises
resolves `x` to the `undefined` sentinel and still renders the following name
`y` (itself absent from both scopes) on the same line. -/
theorem verbose_lvals_undefined_sentinel_witness :
    (buildLvals
        ⟨["x"], fun _ => true, fun _ => false,
         fun _ => Except.error (), fun _ => Except.error ()⟩
        ["x", "y"]).length = 2 :=
  (verbose_lvals_undefined_sentinel
      ⟨["x"], fun _ => true, fun _ => false,
       fun _ => Except.error (), fun _ => Except.error ()⟩
      ["x", "y"] 0 "x" rfl (by decide)).1

/-! ## `_formatTracebackLines` (ultraTB.py lines 160-190)

Shared by the verbose per-frame rendering and the syntax-error path.  Under
NoColor the emphasized error line is `marker + str(i) + ' ' + line` and the
other lines are `'%*s' % (numbers_width, i) + ' ' + line`; `lvals` is
appended right after the error line when non-empty. -/

def INDENT_SIZE : Nat := 8

/-- The arrow marker chosen by the free gutter width
(`pad = numbers_width - len(str(i))`). -/
def ftlMarker (i : Int) : String :=
  let pad : Int := ((INDENT_SIZE - 1 : Nat) : Int) - (toString i).length
  if pad ≥ 3 then String.mk (List.replicate (pad - 3).toNat '-') ++ "-> "
  else if pad = 2 then "> "
  else if pad = 1 then ">"
  else ""

def formatTBGo (lnum : Int) (lvals : String) : Int → List String → List String
  | _, [] => []
  | i, line :: rest =>
      let entry :=
        if i = lnum then (ftlMarker i ++ toString i) ++ " " ++ line
        else pyRjust (toString i) ((INDENT_SIZE - 1 : Nat) : Int) ++ " " ++ line
      let extra := if lvals ≠ "" ∧ i = lnum then [lvals ++ "\n"] else []
      entry :: (extra ++ formatTBGo lnum lvals (i + 1) rest)

def formatTracebackLines (lnum index : Int) (lines : List String) (lvals : String) :
    List String :=
  formatTBGo lnum lvals (lnum - index) lines

/-! ## `VerboseTB.text` (ultraTB.py lines 397-666)

The introspection step

        try:
            records = _fixed_getinnerframes(tb, context, self.tb_offset)
        except:
            traceback.print_exc(file=sys.stderr)
            return ''

is modelled by an `Except`-valued input: `inspect.getinnerframes` (inside
`_fixed_getinnerframes`) is an external collaborator that can raise
anything; on failure the printed traceback goes to the standard error sink
and the render returns the empty report.  Each successful record carries its
per-frame data, with the external pieces (`os.path.abspath`-normalized file
name, `inspect.formatargvalues` output, the `tokenize` stream of the error
line) as explicit fields. -/

structure VRecord where
  file : String
  lnum : Int
  func : String
  lines : List String
  index : Option Int
  tokens : List Tok
  scope : FrameScope
  argsFmt : Except Unit String

/-- The `call` piece of a frame header: `''` for the `'?'` pseudo-function,
otherwise `in func(...)`, with the `KeyError` fallback of
`inspect.formatargvalues`. -/
def vrecordCall (r : VRecord) : String :=
  if r.func = "?" then ""
  else
    match r.argsFmt with
    | .ok s => "in " ++ r.func ++ s
    | .error _ => "in " ++ r.func ++ "(***failed resolving arguments***)"

/-- One frame block of the verbose report (NoColor). -/
def renderVRecord (includeVars : Bool) (r : VRecord) : String :=
  let uniqueNames := uniq_stable (rawNames r.tokens)
  let lvalsList := if includeVars then buildLvals r.scope uniqueNames else []
  let lvals :=
    if lvalsList ≠ [] then "        " ++ String.intercalate "\n        " lvalsList else ""
  let level := r.file ++ " " ++ vrecordCall r ++ "\n"
  match r.index with
  | none => level
  | some idx => level ++ String.join (formatTracebackLines r.lnum idx r.lines lvals)

/-- The simplified (`long_header=0`) report head. -/
def verboseHead (etype : String) : String :=
  String.mk (List.replicate 75 '-') ++ "\n" ++ etype ++
    pyRjust "Traceback (most recent call last)" (75 - (etype.length : Int))

/-- The renderer `VerboseTB.text`: the report string together with what was printed to
the standard error stream. -/
def verboseText (etype : String) (evalueStr : String) (includeVars : Bool)
    (records : Except String (List VRecord)) : String × List String :=
  match records with
  | .error printed => ("", [printed])
  | .ok rs =>
      let head := verboseHead etype
      let frames := rs.map (renderVRecord includeVars)
      let exception := etype ++ ": " ++ evalueStr
      (head ++ "\n\n" ++ String.intercalate "\n" frames ++ "\n" ++ exception, [])

/-- C8: when obtaining the stack frame records fails with any exception, the
verbose render for that call returns the empty string as its report and the
underlying failure is printed to the standard error stream — and nothing
else: the failure does not propagate (the embedding is a total function into
a report/stderr pair, mirroring the source's bare `except:` around the only
fallible step). -/
theorem verboseText_introspection_failure (etype evalueStr : String)
    (includeVars : Bool) (printed : String) :
    (verboseText etype evalueStr includeVars (Except.error printed)).1 = "" ∧
    (verboseText etype evalueStr includeVars (Except.error printed)).2 = [printed] :=
  ⟨rfl, rfl⟩

/-! ## `ListTB` (ultraTB.py lines 231-373) -/

/-- The exception type as `ListTB._format_exception_only` looks at it: its
display name (`etype.__name__`, or the string itself for Python 2 string
exceptions) and whether it is exactly `SyntaxError`. -/
structure ExcType where
  name : String
  isSyntaxError : Bool
deriving DecidableEq, Repr

/-- The pieces of a `SyntaxError` value that unpack as
`msg, (filename, lineno, offset, line) = value`. -/
structure SynInfo where
  msg : String
  filename : Option String
  lineno : Int
  offset : Option Int
  line : Option (List Char)

/-- An exception value as the renderer consumes it: `None`-ness, the result
of `str(value)` (`strOk = false` models `str` raising, handled by
`_some_str`), the type name used in `_some_str`'s fallback, and the
`SyntaxError` unpacking when it succeeds. -/
structure PyValue where
  isNone : Bool
  strOk : Bool
  strForm : String
  typeName : String
  syn : Option SynInfo

/-- The fallback stringifier `ListTB._some_str`. -/
def someStr (v : PyValue) : String :=
  if v.strOk then v.strForm else "<unprintable " ++ v.typeName ++ " object>"

/-- The formatter `ListTB._format_exception_only` (NoColor).  For `SyntaxError` with a
successful unpack it emits the file/line header, the stripped source line,
the caret line, and rebinds the value to the bare message; otherwise a single
`kind: message` (or bare `kind`) line. -/
def formatExceptionOnly (etype : ExcType) (value : PyValue) : List String :=
  let stype := etype.name
  if value.isNone then [stype ++ "\n"]
  else
    match (if etype.isSyntaxError then value.syn else none) with
    | some si =>
        let filename :=
          match si.filename with
          | some f => if f = "" then "<string>" else f
          | none => "<string>"
        let fileEntry := "  File \"" ++ filename ++ "\", line " ++ toString si.lineno ++ "\n"
        let srcEntries :=
          match si.line with
          | none => []
          | some l =>
              let shown := "    " ++ String.mk (pyStrip l) ++ "\n"
              match si.offset with
              | none => [shown]
              | some off => [shown, String.mk (caretLine l off) ++ "\n"]
        let s := si.msg
        (fileEntry :: srcEntries) ++ [if s ≠ "" then stype ++ ": " ++ s else stype]
    | none =>
        let s := someStr value
        if s ≠ "" then [stype ++ ": " ++ s] else [stype]

/-- One entry of an extracted traceback list (`traceback.extract_tb`). -/
structure TBEntry where
  filename : String
  lineno : Int
  name : String
  line : Option String
deriving DecidableEq, Repr

/-- One formatted entry of `ListTB._format_list`.  Under NoColor the
emphasized final entry renders to the same text as the others, so a single
shape serves both branches. -/
def formatListEntry (e : TBEntry) : String :=
  let item := "  File \"" ++ e.filename ++ "\", line " ++ toString e.lineno
      ++ ", in " ++ e.name ++ "\n"
  match e.line with
  | some l => if l ≠ "" then item ++ "    " ++ String.mk (pyStrip l.toList) ++ "\n" else item
  | none => item

def formatList (l : List TBEntry) : List String := l.map formatListEntry

/-- The renderer `ListTB.text`: traceback header and entries when `elist` is truthy, a
60-dash top line otherwise, then the exception-only lines, all but the last
indented by one space. -/
def listTBText (etype : ExcType) (value : PyValue) (elist : Option (List TBEntry)) :
    String :=
  let out :=
    match elist with
    | some l =>
        if l ≠ [] then ("Traceback (most recent call last):" ++ "\n") :: formatList l
        else [String.mk (List.replicate 60 '-') ++ "\n"]
    | none => [String.mk (List.replicate 60 '-') ++ "\n"]
  let lines := formatExceptionOnly etype value
  String.join (out ++ lines.dropLast.map (fun l => " " ++ l) ++ [lines.getLastD ""])

/-! ## `FormattedTB.text` (ultraTB.py lines 702-727)

    def _extract_tb(self, tb):
        if tb:
            return traceback.extract_tb(tb)
        else:
            return None

    def text(self, etype, value, tb, context=5, mode=None):
        if mode is None:
            mode = self.mode
        if mode in self.verbose_modes and tb and tb.tb_next:
            return VerboseTB.text(self, etype, value, tb, context=5)
        else:
            linecache.checkcache()
            elist = self._extract_tb(tb)
            if len(elist) > self.tb_offset:
                del elist[:self.tb_offset]
            return ListTB.text(self, etype, value, elist)

A traceback object is modelled as `Option (List TBEntry)`: `none` is a
`None` argument, `some l` a chain of `l.length` frames (already in extracted
form, since `traceback.extract_tb` is the standard library).  `tb.tb_next`
is truthy exactly when the chain has a second frame.  With `tb = None`,
`_extract_tb` returns `None` and `len(elist)` raises `TypeError`. -/

def valid_modes : List String := ["Plain", "Context", "Verbose"]

/-- The sublist `self.valid_modes[1:3]`. -/
def verbose_modes : List String := (valid_modes.drop 1).take 2

def extract_tb (tb : Option (List TBEntry)) : Option (List TBEntry) := tb

def tbNextTruthy : Option (List TBEntry) → Bool
  | none => false
  | some l => !l.tail.isEmpty

/-- The dispatch condition `mode in self.verbose_modes and tb and tb.tb_next`. -/
def formattedSelectsVerbose (mode : String) (tb : Option (List TBEntry)) : Bool :=
  verbose_modes.contains mode && tb.isSome && tbNextTruthy tb

inductive PyErr where
  /-- A `TypeError: len() of unsized object`, from `len(None)`. -/
  | typeErrorLenNone
deriving DecidableEq, Repr

/-- The result of one `FormattedTB.text` call: a verbose-engine report (with
its standard-error side channel) or the list-rendering path's outcome, which
can itself raise. -/
inductive FTBOut where
  | verboseOut (report : String) (stderrLines : List String)
  | listOut (res : Except PyErr String)

def FTBOut.isVerbose : FTBOut → Bool
  | .verboseOut _ _ => true
  | .listOut _ => false

def formattedText (mode : String) (tbOffset : Nat) (includeVars : Bool)
    (etype : ExcType) (value : PyValue) (tb : Option (List TBEntry))
    (records : Except String (List VRecord)) : FTBOut :=
  if formattedSelectsVerbose mode tb then
    FTBOut.verboseOut (verboseText etype.name (someStr value) includeVars records).1
      (verboseText etype.name (someStr value) includeVars records).2
  else
    match extract_tb tb with
    | none => FTBOut.listOut (Except.error PyErr.typeErrorLenNone)
    | some elist =>
        let elist := if elist.length > tbOffset then elist.drop tbOffset else elist
        FTBOut.listOut (Except.ok (listTBText etype value (some elist)))

/-- C7: the automatic dispatch renders with the full verbose engine exactly
when the effective mode is `Context` or `Verbose` and the traceback has at
least two chained frames; in every other case (including a single-frame or
absent traceback, whatever the mode) it takes the `ListTB` fallback path. -/
theorem formattedText_dispatch (mode : String) (tbOffset : Nat) (includeVars : Bool)
    (etype : ExcType) (value : PyValue) (tb : Option (List TBEntry))
    (records : Except String (List VRecord)) :
    (formattedText mode tbOffset includeVars etype value tb records).isVerbose = true
      ↔ ((mode = "Context" ∨ mode = "Verbose") ∧ 2 ≤ (tb.getD []).length) := by
  have hsel : formattedSelectsVerbose mode tb = true
      ↔ ((mode = "Context" ∨ mode = "Verbose") ∧ 2 ≤ (tb.getD []).length) := by
    unfold formattedSelectsVerbose tbNextTruthy verbose_modes valid_modes
    cases tb with
    | none => simp
    | some l =>
        cases l with
        | nil => simp
        | cons a as =>
            cases as with
            | nil => simp
            | cons b bs =>
                simp [List.contains_cons]
  unfold formattedText
  by_cases h : formattedSelectsVerbose mode tb = true
  · rw [if_pos h]
    simp only [FTBOut.isVerbose]
    exact ⟨fun _ => hsel.mp h, fun _ => trivial⟩
  · rw [if_neg h]
    have : ¬ ((mode = "Context" ∨ mode = "Verbose") ∧ 2 ≤ (tb.getD []).length) :=
      fun hc => h (hsel.mpr hc)
    cases htb : extract_tb tb with
    | none => simpa [FTBOut.isVerbose] using this
    | some elist => simpa [FTBOut.isVerbose] using this

/-- C2: with a `None` traceback argument, `FormattedTB.text` does not return
a report at all — the list path's `len(elist)` is reached with
`elist = None` and raises `TypeError`, for every mode, offset and exception
value (the verbose engine is never selected for a `None` traceback). -/
theorem formattedText_none_tb_raises (mode : String) (tbOffset : Nat)
    (includeVars : Bool) (etype : ExcType) (value : PyValue)
    (records : Except String (List VRecord)) :
    formattedText mode tbOffset includeVars etype value none records
      = FTBOut.listOut (Except.error PyErr.typeErrorLenNone) := by
  have hsel : formattedSelectsVerbose mode none = false := by
    unfold formattedSelectsVerbose
    simp
  unfold formattedText
  rw [hsel]
  simp [extract_tb]

/-! ## `Pdb.do_list` (Debugger.py lines 351-400)

        x = eval(arg, {}, {})
        if type(x) == type(()):
            first, last = x
            first = int(first)
            last = int(last)
            if last < first:
                # Assume it's a count
                last = first + last
        ...
        for lineno in range(first, last+1):
            line = linecache.getline(filename, lineno)
            if not line:
                break
            ...

The claim concerns the two-number argument form, so the embedding starts
from the parsed pair of integers. -/

/-- The effective end line after the count adjustment. -/
def doListLast (first last0 : Int) : Int :=
  if last0 < first then first + last0 else last0

/-- Python `range(a, b)` over integers. -/
def pyRangeInt (a b : Int) : List Int :=
  (List.range (b - a).toNat).map (fun k : Nat => a + (k : Int))

/-- The line numbers `do_list` iterates over: `range(first, last+1)`. -/
def doListLineNos (first last0 : Int) : List Int :=
  pyRangeInt first (doListLast first last0 + 1)

/-- The line numbers actually printed: the iteration breaks at the first
line `linecache.getline` has no content for. -/
def doListPrinted (file : List String) (first last0 : Int) : List Int :=
  (doListLineNos first last0).takeWhile (fun n => pyGetline file n != "")

theorem mem_pyRangeInt (a b n : Int) : n ∈ pyRangeInt a b ↔ a ≤ n ∧ n < b := by
  unfold pyRangeInt
  simp only [List.mem_map, List.mem_range]
  constructor
  · rintro ⟨k, hk, rfl⟩
    omega
  · rintro ⟨h1, h2⟩
    refine ⟨(n - a).toNat, by omega, by omega⟩

/-- C9: when the second number of a `list first,second` pair is smaller than
the first, it is treated as a count: the iterated line numbers are exactly
`first` through `first + second` inclusive (not `first` through `second`). -/
theorem do_list_count_semantics (first second : Int) (h : second < first) :
    ∀ n : Int, n ∈ doListLineNos first second ↔ (first ≤ n ∧ n ≤ first + second) := by
  intro n
  unfold doListLineNos doListLast
  rw [if_pos h, mem_pyRangeInt]
  omega

/-- C9, witness: `list 10,3` walks lines 10 through 13 and stops there. -/
theorem do_list_count_semantics_witness :
    (13 : Int) ∈ doListLineNos 10 3 ∧ ¬ (14 : Int) ∈ doListLineNos 10 3 := by
  constructor
  · exact (do_list_count_semantics 10 3 (by decide) 13).mpr ⟨by decide, by decide⟩
  · intro hc
    have h := (do_list_count_semantics 10 3 (by decide) 14).mp hc
    omega

/-! ## The package-level `excepthook` (__init__.py lines 16-26)

    def excepthook(etype, value, tb):
        if etype is bdb.BdbQuit:
            return

        defaultTB(etype, value, tb)

        if tb and not sys.stdout.closed and \
                hasattr(sys.stdout, "isatty") and \
                sys.stdout.isatty() and \
                etype.__name__ != "DistributionNotFound":
            Debugger.post_mortem(tb)

The observable behavior is the sequence of effects: rendering the default
traceback report, then possibly entering the post-mortem debugger.  The
`sys.stdout` probes are modelled as an explicit state. -/

/-- An exception type as `excepthook` inspects it: identity with
`bdb.BdbQuit` and its `__name__`. -/
structure HookEType where
  name : String
  isBdbQuit : Bool
deriving DecidableEq, Repr

structure StdoutState where
  closed : Bool
  hasIsatty : Bool
  isattyVal : Bool
deriving DecidableEq, Repr

inductive HookEffect where
  | renderReport
  | postMortem
deriving DecidableEq, Repr

def excepthook (etype : HookEType) (_value : String) (tbPresent : Bool)
    (out : StdoutState) : List HookEffect :=
  if etype.isBdbQuit then []
  else
    HookEffect.renderReport ::
      (if tbPresent && !out.closed && out.hasIsatty && out.isattyVal
          && (etype.name != "DistributionNotFound")
       then [HookEffect.postMortem] else [])

/-- C10: for `bdb.BdbQuit` the hook returns immediately: no report is
rendered and the post-mortem debugger is never entered, whatever the value,
traceback and stdout state. -/
theorem excepthook_bdbquit (etype : HookEType) (value : String) (tbPresent : Bool)
    (out : StdoutState) (h : etype.isBdbQuit = true) :
    excepthook etype value tbPresent out = [] := by
  simp [excepthook, h]

/-- C10, witness. -/
theorem excepthook_bdbquit_witness :
    excepthook ⟨"BdbQuit", true⟩ "boom" true ⟨false, true, true⟩ = [] :=
  excepthook_bdbquit _ _ _ _ rfl

end TBTools
